import Mathlib

/-!
A shallow embedding of the authentication core of the FastAPI MFA application
(src/auth.py, src/main.py, src/database.py).  Pure functions of the source are
translated to Lean functions; the SQLAlchemy user table is a list of records;
endpoint handlers are state-passing functions from request data and the user
table to a response and a new table.  Library calls made by the source
(the RFC-4226/6238 TOTP of pyotp, the JWT decode discipline of python-jose, the
bcrypt context) are modelled at the level of their published algorithms:
TOTP is implemented in full (SHA-1, HMAC-SHA-1, dynamic truncation, base32),
while the bcrypt digest and the JWT MAC are kept as explicit function
parameters, since every property proved here is independent of their
internals.
-/

set_option maxRecDepth 20000
set_option maxHeartbeats 4000000

namespace MfaApp

/-! ## Bytes and 32-bit words -/

/-- Big-endian byte decomposition: `toBytesBE n x` is the `n`-byte
big-endian representation of `x % 256^n`. -/
def toBytesBE : Nat → Nat → List Nat
  | 0, _ => []
  | n + 1, x => toBytesBE n (x / 256) ++ [x % 256]

/-- Group a byte list into big-endian 32-bit words (trailing partial group
dropped; SHA-1 only ever applies this to 64-byte blocks). -/
def bytesToWords : List Nat → List Nat
  | a :: b :: c :: d :: rest => (((a * 256 + b) * 256 + c) * 256 + d) :: bytesToWords rest
  | _ => []

/-- Rotate a 32-bit word left by `n` bits. -/
def rotl32 (n x : Nat) : Nat :=
  ((x * 2 ^ n) % 4294967296) ||| (x % 4294967296) / 2 ^ (32 - n)

/-! ## SHA-1 (FIPS 180-4), as used by pyotp through `hashlib.sha1` -/

def sha1K (i : Nat) : Nat :=
  if i < 20 then 0x5A827999
  else if i < 40 then 0x6ED9EBA1
  else if i < 60 then 0x8F1BBCDC
  else 0xCA62C1D6

def sha1F (i b c d : Nat) : Nat :=
  if i < 20 then (b &&& c) ||| ((b ^^^ 4294967295) &&& d)
  else if i < 40 then b ^^^ c ^^^ d
  else if i < 60 then (b &&& c) ||| (b &&& d) ||| (c &&& d)
  else b ^^^ c ^^^ d

/-- Message schedule: extend 16 words to 80. -/
def sha1Extend (w : List Nat) : List Nat :=
  (List.range 64).foldl
    (fun acc i =>
      acc ++ [rotl32 1 ((acc.getD (i + 13) 0) ^^^ (acc.getD (i + 8) 0) ^^^
                        (acc.getD (i + 2) 0) ^^^ (acc.getD i 0))])
    w

def sha1Round (w : List Nat) :
    Nat × Nat × Nat × Nat × Nat → Nat → Nat × Nat × Nat × Nat × Nat :=
  fun s i =>
    let (a, b, c, d, e) := s
    let t := (rotl32 5 a + sha1F i b c d + e + sha1K i + w.getD i 0) % 4294967296
    (t, a, rotl32 30 b, c, d)

def sha1Compress (h : Nat × Nat × Nat × Nat × Nat) (block : List Nat) :
    Nat × Nat × Nat × Nat × Nat :=
  let w := sha1Extend (bytesToWords block)
  let (h0, h1, h2, h3, h4) := h
  let (a, b, c, d, e) := (List.range 80).foldl (sha1Round w) (h0, h1, h2, h3, h4)
  ((h0 + a) % 4294967296, (h1 + b) % 4294967296, (h2 + c) % 4294967296,
   (h3 + d) % 4294967296, (h4 + e) % 4294967296)

/-- Merkle–Damgård padding: `0x80`, zero bytes, 8-byte big-endian bit length. -/
def sha1Pad (msg : List Nat) : List Nat :=
  msg ++ [128] ++ List.replicate ((119 - msg.length % 64) % 64) 0 ++
    toBytesBE 8 (msg.length * 8)

def sha1Blocks : Nat → Nat × Nat × Nat × Nat × Nat → List Nat → Nat × Nat × Nat × Nat × Nat
  | 0, h, _ => h
  | n + 1, h, bytes => sha1Blocks n (sha1Compress h (bytes.take 64)) (bytes.drop 64)

/-- SHA-1 of a byte list, as a 20-byte list. -/
def sha1 (msg : List Nat) : List Nat :=
  let padded := sha1Pad msg
  let (h0, h1, h2, h3, h4) :=
    sha1Blocks (padded.length / 64)
      (0x67452301, 0xEFCDAB89, 0x98BADCFE, 0x10325476, 0xC3D2E1F0) padded
  toBytesBE 4 h0 ++ toBytesBE 4 h1 ++ toBytesBE 4 h2 ++ toBytesBE 4 h3 ++ toBytesBE 4 h4

/-! ## HMAC-SHA-1 (RFC 2104), as used by pyotp through `hmac.new` -/

def hmacSha1 (key msg : List Nat) : List Nat :=
  let k0 := if 64 < key.length then sha1 key else key
  let k := k0 ++ List.replicate (64 - k0.length) 0
  sha1 ((k.map (· ^^^ 0x5C)) ++ sha1 ((k.map (· ^^^ 0x36)) ++ msg))

/-! ## HOTP / TOTP (RFC 4226 / RFC 6238), `generate_otp` of pyotp -/

/-- RFC 4226 dynamic truncation of a 20-byte HMAC value. -/
def dynamicTruncate (h : List Nat) : Nat :=
  let o := h.getD 19 0 % 16
  (h.getD o 0 % 128) * 16777216 + h.getD (o + 1) 0 * 65536 +
    h.getD (o + 2) 0 * 256 + h.getD (o + 3) 0

def digitChar (n : Nat) : Char := Char.ofNat (48 + n)

/-- The 6-digit zero-padded decimal string of `n % 10^6`; pyotp writes it as
`str(10_000_000_000 + code % 10 ** digits)[-digits:]`, which agrees. -/
def zpad6 (n : Nat) : String :=
  String.mk [digitChar (n / 100000 % 10), digitChar (n / 10000 % 10),
             digitChar (n / 1000 % 10), digitChar (n / 100 % 10),
             digitChar (n / 10 % 10), digitChar (n % 10)]

/-- pyotp `generate_otp`: the 6-digit HOTP code for a key and counter. -/
def hotp (key : List Nat) (counter : Nat) : String :=
  zpad6 (dynamicTruncate (hmacSha1 key (toBytesBE 8 counter)))

/-! ## Base32 (RFC 4648), `byte_secret` of pyotp -/

def b32Val (c : Char) : Option Nat :=
  let n := c.toNat
  if 65 ≤ n ∧ n ≤ 90 then some (n - 65)
  else if 97 ≤ n ∧ n ≤ 122 then some (n - 97)
  else if 50 ≤ n ∧ n ≤ 55 then some (n - 24)
  else none

def b32Vals : List Char → Option (List Nat)
  | [] => some []
  | c :: cs => do pure ((← b32Val c) :: (← b32Vals cs))

/-- Decode a run of base32 alphabet characters (no padding) to bytes,
discarding trailing bits short of a byte, as `base64.b32decode` does. -/
def b32DecodeBody (cs : List Char) : Option (List Nat) :=
  (b32Vals cs).map fun vs =>
    let bits := 5 * vs.length
    toBytesBE (bits / 8) ((vs.foldl (fun a v => a * 32 + v) 0) / 2 ^ (bits % 8))

/-- pyotp `byte_secret`: pad the stored secret with `=` to a multiple of 8 and
`base64.b32decode` it with case folding; `none` models the `binascii.Error` /
decode exception raised on input that is not valid base32. -/
def byte_secret (s : String) : Option (List Nat) :=
  let cs0 := s.toList
  let cs := cs0 ++ List.replicate ((8 - cs0.length % 8) % 8) '='
  let body := cs.takeWhile (· ≠ '=')
  let pad := cs.length - body.length
  if (cs.drop body.length).all (· == '=') &&
      (pad == 0 || pad == 1 || pad == 3 || pad == 4 || pad == 6) then
    b32DecodeBody body
  else none

/-- src/auth.py `verify_mfa_code(secret, code)`: `pyotp.TOTP(secret).verify(code)`
with the library defaults `interval = 30`, `digits = 6`, `valid_window = 0`,
evaluated at unix time `now` (seconds).  `none` models the exception pyotp
raises when the secret does not base32-decode; with a decodable secret the
call never raises and compares the submitted string against the single code
of the current 30-second window. -/
def verify_mfa_code (secret code : String) (now : Nat) : Option Bool :=
  (byte_secret secret).map fun key => code == hotp key (now / 30)

/-! ## passlib bcrypt (src/auth.py `pwd_context`) -/

/-- UTF-8 encoding of one character, as `str.encode("utf-8")` produces. -/
def utf8Char (c : Char) : List Nat :=
  let n := c.toNat
  if n < 128 then [n]
  else if n < 2048 then [192 + n / 64, 128 + n % 64]
  else if n < 65536 then [224 + n / 4096, 128 + n / 64 % 64, 128 + n % 64]
  else [240 + n / 262144, 128 + n / 4096 % 64, 128 + n / 64 % 64, 128 + n % 64]

def utf8Encode (s : String) : List Nat := s.toList.flatMap utf8Char

/-- bcrypt processes only the first 72 bytes of the encoded password; the
passlib `truncate_error` flag defaults to off, so longer passwords are
silently truncated before hashing and verifying. -/
def truncate72 (password : String) : List Nat := (utf8Encode password).take 72

/-- The components of a bcrypt modular-crypt hash string
`$2b$<2-digit cost>$<22-char salt><digest>`. -/
structure BHash where
  cost : Nat
  salt : List Char
  digest : List Char
deriving DecidableEq

def digitChar2 (n : Nat) : Char := Char.ofNat (48 + n % 10)

def renderBcrypt (h : BHash) : String :=
  String.mk ('$' :: '2' :: 'b' :: '$' :: digitChar2 (h.cost / 10) ::
    digitChar2 h.cost :: '$' :: (h.salt ++ h.digest))

def parseBcrypt (s : String) : Option BHash :=
  match s.toList with
  | '$' :: '2' :: 'b' :: '$' :: c1 :: c2 :: '$' :: rest =>
    if c1.isDigit ∧ c2.isDigit ∧ 22 ≤ rest.length then
      some ⟨(c1.toNat - 48) * 10 + (c2.toNat - 48), rest.take 22, rest.drop 22⟩
    else none
  | _ => none

/-- The bcrypt key-derivation digest as a function of cost, salt and the
truncated password bytes.  Eksblowfish is far outside what the kernel can
evaluate, so the digest is an explicit parameter throughout; every theorem
below holds for an arbitrary digest function. -/
abbrev DigestFun := Nat → List Char → List Nat → List Char

/-- src/auth.py `get_password_hash`: `CryptContext(schemes=["bcrypt"]).hash`.
The internal fresh-salt generation of passlib is externalized into the `salt`
argument (a fresh random 22-character value per call); the cost is the
passlib bcrypt default of 12. -/
def get_password_hash (f : DigestFun) (salt : List Char) (password : String) : String :=
  renderBcrypt ⟨12, salt, f 12 salt (truncate72 password)⟩

inductive HashError where
  | unknownHash
deriving DecidableEq

/-- src/auth.py `verify_password`: `pwd_context.verify`.  `Except.error
.unknownHash` models the `UnknownHashError` (a `ValueError`) passlib raises
when the hash string cannot be parsed as a hash of a configured scheme; on a
well-formed hash the digest is recomputed from the embedded cost and salt
and compared in constant time. -/
def verify_password (f : DigestFun) (plain_password hashed_password : String) :
    Except HashError Bool :=
  match parseBcrypt hashed_password with
  | none => .error .unknownHash
  | some h => .ok (f h.cost h.salt (truncate72 plain_password) == h.digest)

/-! ## python-jose JWT (src/auth.py token functions) -/

/-- The claim set the application serializes into tokens: an optional `sub`
string, whether the `temp: True` claim is present, and the `exp` unix time in
whole seconds (jose runs the datetime through `calendar.timegm`). -/
structure Payload where
  sub : Option String
  temp : Bool
  exp : Nat
deriving DecidableEq

/-- The HS256 MAC over the encoded header and payload, as a parameter: every
theorem below holds for an arbitrary MAC function. -/
abbrev Mac := String → Payload → Nat

def SECRET_KEY : String := "your-secret-key-change-in-production"

/-- src/auth.py defines this constant, but no call site ever passes it. -/
def ACCESS_TOKEN_EXPIRE_MINUTES : Nat := 30

structure Token where
  payload : Payload
  sig : Nat
deriving DecidableEq

/-- A token string as `jwt.decode` receives it: the serialization of a signed
claim set, or a string that does not parse as a JWS at all. -/
inductive TokenMsg where
  | good (t : Token)
  | garbage (raw : String)
deriving DecidableEq

inductive JWTError where
  | invalidSignature
  | expired
  | malformed
deriving DecidableEq

/-- python-jose `jwt.decode(token, key, algorithms=["HS256"])`: structure and
signature are checked first (`jws.verify`; any failure there is a
tamper-related `JWSError`/`JWTError`), then `_validate_exp` raises
`ExpiredSignatureError` exactly when `exp < now` (strict comparison, default
leeway 0, whole seconds). -/
def jwt_decode (mac : Mac) (key : String) (now : Nat) : TokenMsg → Except JWTError Payload
  | .garbage _ => .error .malformed
  | .good t =>
    if t.sig ≠ mac key t.payload then .error .invalidSignature
    else if t.payload.exp < now then .error .expired
    else .ok t.payload

/-- src/auth.py `create_access_token(data, expires_delta)`: copy the claims,
set `exp` to now plus the given delta — or now plus 15 minutes when the
caller passes nothing — and sign with `SECRET_KEY`. -/
def create_access_token (mac : Mac) (now : Nat) (sub : Option String) (temp : Bool)
    (expires_delta : Option Nat) : Token :=
  let p : Payload := ⟨sub, temp, now + expires_delta.getD (15 * 60)⟩
  ⟨p, mac SECRET_KEY p⟩

/-- src/auth.py `verify_token`: `jwt.decode` under `SECRET_KEY`; returns the
`sub` claim, `None` when `sub` is absent, and `None` for every `JWTError`
(the `except JWTError` arm catches every failure decode can raise). -/
def verify_token (mac : Mac) (now : Nat) (token : TokenMsg) : Option String :=
  match jwt_decode mac SECRET_KEY now token with
  | .error _ => none
  | .ok p => p.sub

/-! ## The user table (src/database.py) and the endpoints (src/main.py) -/

structure UserRec where
  email : String
  name : String
  hashed_password : String
  mfa_secret : Option String
  mfa_enabled : Bool
deriving DecidableEq

abbrev Db := List UserRec

/-- `db.query(User).filter(User.email == email).first()`. -/
def findByEmail (db : Db) (e : String) : Option UserRec :=
  db.find? (fun u => u.email == e)

/-- Mutating the fetched row and committing: replace the rows with that email
(emails are unique in the table). -/
def updateByEmail (db : Db) (e : String) (f : UserRec → UserRec) : Db :=
  db.map (fun u => if u.email == e then f u else u)

inductive Resp where
  | redirect (url : String)
  | redirectWithCookie (url : String) (tok : Token)
  | redirectMfaVerify (tok : Token)
  | httpError (code : Nat) (detail : String)
  | template (name : String)
deriving DecidableEq

/-- POST /signup: reject a taken email, otherwise insert the new record; the
`mfa_secret` and `mfa_enabled` columns take their declared defaults `NULL`
and `False`. -/
def signup (f : DigestFun) (salt : List Char) (email name password : String)
    (db : Db) : Resp × Db :=
  match findByEmail db email with
  | some _ => (.httpError 400 "Email already registered", db)
  | none => (.redirect "/login",
      db ++ [⟨email, name, get_password_hash f salt password, none, false⟩])

/-- POST /login; `none` models an uncaught exception (passlib raising on a
malformed stored hash). -/
def login (f : DigestFun) (mac : Mac) (now : Nat) (email password : String)
    (db : Db) : Option (Resp × Db) :=
  match findByEmail db email with
  | none => some (.httpError 401 "Incorrect email or password", db)
  | some user =>
    match verify_password f password user.hashed_password with
    | .error _ => none
    | .ok false => some (.httpError 401 "Incorrect email or password", db)
    | .ok true =>
      if user.mfa_enabled then
        some (.redirectMfaVerify (create_access_token mac now (some user.email) true none), db)
      else
        some (.redirectWithCookie "/dashboard"
          (create_access_token mac now (some user.email) false none), db)

/-- POST /mfa-verify; `none` models an uncaught pyotp exception. -/
def mfa_verify (mac : Mac) (now : Nat) (code : String) (token : TokenMsg)
    (db : Db) : Option (Resp × Db) :=
  match verify_token mac now token with
  | none => some (.httpError 401 "Invalid token", db)
  | some email =>
    match findByEmail db email with
    | none => some (.httpError 400 "MFA not enabled for this user", db)
    | some user =>
      if !user.mfa_enabled then some (.httpError 400 "MFA not enabled for this user", db)
      else
        match user.mfa_secret with
        | none => none
        | some secret =>
          match verify_mfa_code secret code now with
          | none => none
          | some false => some (.httpError 401 "Invalid MFA code", db)
          | some true =>
            some (.redirectWithCookie "/dashboard"
              (create_access_token mac now (some user.email) false none), db)

/-- GET /dashboard: read-only; renders for any cookie token whose
`verify_token` yields the email of an existing user. -/
def dashboard (mac : Mac) (now : Nat) (cookie : Option TokenMsg) (db : Db) : Resp :=
  match cookie with
  | none => .redirect "/login"
  | some token =>
    match verify_token mac now token with
    | none => .redirect "/login"
    | some email =>
      match findByEmail db email with
      | none => .redirect "/login"
      | some _ => .template "dashboard.html"

/-- GET /setup-mfa: read-only; the freshly generated secret and QR image are
returned to the client, nothing is persisted. -/
def setup_mfa (mac : Mac) (now : Nat) (cookie : Option TokenMsg) (db : Db) : Resp :=
  match cookie with
  | none => .redirect "/login"
  | some token =>
    match verify_token mac now token with
    | none => .redirect "/login"
    | some email =>
      match findByEmail db email with
      | none => .redirect "/login"
      | some user =>
        if user.mfa_enabled then .template "mfa_already_setup.html"
        else .template "setup_mfa.html"

/-- POST /enable-mfa: verify the submitted code against the caller-supplied
secret and, on success, persist that secret verbatim and set the flag; there
is no check that MFA is currently disabled. -/
def enable_mfa (mac : Mac) (now : Nat) (cookie : Option TokenMsg)
    (secret code : String) (db : Db) : Option (Resp × Db) :=
  match cookie with
  | none => some (.redirect "/login", db)
  | some token =>
    match verify_token mac now token with
    | none => some (.redirect "/login", db)
    | some email =>
      match findByEmail db email with
      | none => some (.redirect "/login", db)
      | some _ =>
        match verify_mfa_code secret code now with
        | none => none
        | some false => some (.httpError 401 "Invalid MFA code", db)
        | some true =>
          some (.redirect "/dashboard?mfa_enabled=true", updateByEmail db email
            (fun u => { u with mfa_secret := some secret, mfa_enabled := true }))

/-- POST /disable-mfa: requires MFA currently enabled; verifies the code
against the stored secret and clears both fields on success. -/
def disable_mfa (mac : Mac) (now : Nat) (cookie : Option TokenMsg)
    (code : String) (db : Db) : Option (Resp × Db) :=
  match cookie with
  | none => some (.redirect "/login", db)
  | some token =>
    match verify_token mac now token with
    | none => some (.redirect "/login", db)
    | some email =>
      match findByEmail db email with
      | none => some (.redirect "/login", db)
      | some user =>
        if !user.mfa_enabled then some (.redirect "/dashboard", db)
        else
          match user.mfa_secret with
          | none => none
          | some stored =>
            match verify_mfa_code stored code now with
            | none => none
            | some false => some (.httpError 401 "Invalid MFA code", db)
            | some true =>
              some (.redirect "/dashboard?mfa_disabled=true", updateByEmail db email
                (fun u => { u with mfa_secret := none, mfa_enabled := false }))

/-! ## Concrete instances for closed statements -/

/-- A concrete stand-in MAC used only to instantiate closed statements; the
theorems hold for every MAC. -/
def macModel : Mac := fun key p =>
  let subPart : List Char := match p.sub with | none => [] | some s => 'S' :: s.toList
  ((key.toList ++ subPart).foldl (fun a c => (a * 131 + c.toNat) % 18446744073709551616)
    (if p.temp then 11 else 13)) * 1000003 + p.exp

/-- A concrete stand-in digest used only to instantiate closed statements; the
theorems hold for every digest function. -/
def digestModel : DigestFun := fun cost salt bytes =>
  digitChar (cost / 10 % 10) :: digitChar (cost % 10) :: '|' ::
    (salt ++ '|' :: bytes.flatMap (fun b =>
      [digitChar (b / 100 % 10), digitChar (b / 10 % 10), digitChar (b % 10), ',']))

/-- A fixed well-formed 22-character bcrypt salt. -/
def salt0 : List Char := "abcdefghijklmnopqrstuv".toList


/-! ## Fixtures, the request step relation, and the record invariants -/

/-- The RFC 4226 test secret: base32 of the ASCII key "12345678901234567890". -/
def rfcSecret : String := "GEZDGNBVGY3TQOJQGEZDGNBVGY3TQOJQ"

/-- A second well-formed 22-character bcrypt salt. -/
def salt1 : List Char := "ABCDEFGHIJKLMNOPQRSTUV".toList

def userA : UserRec := ⟨"a@x.com", "A", get_password_hash digestModel salt0 "pw1", none, false⟩

def userM : UserRec := ⟨"m@x.com", "M", get_password_hash digestModel salt0 "pw1",
  some rfcSecret, true⟩

def payloadB : Payload := ⟨some "a@x.com", false, 1000⟩

def payloadNoSub : Payload := ⟨none, false, 1000⟩

/-- The mfa-pending token login issues for userM at time 1000. -/
def tempTokM : Token := create_access_token macModel 1000 (some "m@x.com") true none

def pw72b : String := "aaaaaaaaaaaaaaaaaaaaaaaaaaaaaaaaaaaaaaaaaaaaaaaaaaaaaaaaaaaaaaaaaaaaaaaab"

def pw72c : String := "aaaaaaaaaaaaaaaaaaaaaaaaaaaaaaaaaaaaaaaaaaaaaaaaaaaaaaaaaaaaaaaaaaaaaaaac"

/-- The 20 key bytes the RFC 4226 secret decodes to (ASCII "12345678901234567890"). -/
def rfcKeyBytes : List Nat := "12345678901234567890".toList.map Char.toNat

/-- The full-session token create_access_token issues for userM at time 59. -/
def fullTokM : Token := create_access_token macModel 59 (some "m@x.com") false none

/-- A second decodable secret (base32 "JBSWY3DPEHPK3PXP"). -/
def altSecret : String := "JBSWY3DPEHPK3PXP"

/-- The full-session token for userA issued at time 0. -/
def fullTokA : Token := create_access_token macModel 0 (some "a@x.com") false none

/-- One handled request of any endpoint of src/main.py that receives the user
table; the GET pages (dashboard, setup-mfa, the form pages) are read-only by
their types and so are not table mutations at all. -/
inductive Step (f : DigestFun) (mac : Mac) : Db → Db → Prop where
  | ofSignup (salt : List Char) (email name password : String) (db : Db) (r : Resp) (db' : Db) :
      signup f salt email name password db = (r, db') → Step f mac db db'
  | ofLogin (now : Nat) (email password : String) (db : Db) (r : Resp) (db' : Db) :
      login f mac now email password db = some (r, db') → Step f mac db db'
  | ofMfaVerify (now : Nat) (code : String) (token : TokenMsg) (db : Db) (r : Resp) (db' : Db) :
      mfa_verify mac now code token db = some (r, db') → Step f mac db db'
  | ofEnableMfa (now : Nat) (cookie : Option TokenMsg) (secret code : String) (db : Db)
      (r : Resp) (db' : Db) :
      enable_mfa mac now cookie secret code db = some (r, db') → Step f mac db db'
  | ofDisableMfa (now : Nat) (cookie : Option TokenMsg) (code : String) (db : Db)
      (r : Resp) (db' : Db) :
      disable_mfa mac now cookie code db = some (r, db') → Step f mac db db'

/-- The record invariant as the implementation actually maintains it: an
enabled record stores some secret — possibly the empty string — and a
disabled record stores none. -/
def UserInvariant (u : UserRec) : Prop :=
  (u.mfa_enabled = true → ∃ s, u.mfa_secret = some s) ∧
  (u.mfa_enabled = false → u.mfa_secret = none)

def DbInvariant (db : Db) : Prop := ∀ u ∈ db, UserInvariant u

/-- The record invariant exactly as the claim states it, with the stored
secret also required non-empty. -/
def UserInvariantStrong (u : UserRec) : Prop :=
  (u.mfa_enabled = true → ∃ s, u.mfa_secret = some s ∧ s ≠ "") ∧
  (u.mfa_enabled = false → u.mfa_secret = none)

/-! ## Helper lemmas and the claim theorems -/

theorem xor_two_pow_ne (a i : Nat) : a ^^^ 2 ^ i ≠ a := by
  intro h
  have h2 : a ^^^ (a ^^^ 2 ^ i) = a ^^^ a := congrArg (a ^^^ ·) h
  rw [← Nat.xor_assoc, Nat.xor_self, Nat.zero_xor] at h2
  exact absurd h2 (Nat.pos_iff_ne_zero.mp (pow_pos two_pos i))

/-- C4 (amended): `jwt_decode` succeeds exactly on a structurally well-formed
token whose signature matches the recomputed MAC and whose expiry has not
passed; with a valid signature it fails with the Expired error precisely when
the embedded expiry is strictly before the current whole-second time (a token
with exp equal to the current second is still accepted); any signature
mismatch — in particular a signature with one flipped bit — fails with the
tamper-related error and never succeeds. -/
theorem C4_token_verification (mac : Mac) (key : String) (now : Nat) :
    (∀ t : TokenMsg, (∃ p, jwt_decode mac key now t = .ok p) ↔
       (∃ tok : Token, t = .good tok ∧ tok.sig = mac key tok.payload ∧ ¬ tok.payload.exp < now)) ∧
    (∀ tok : Token, tok.sig = mac key tok.payload → tok.payload.exp < now →
       jwt_decode mac key now (.good tok) = .error .expired) ∧
    (∀ tok : Token, tok.sig ≠ mac key tok.payload →
       jwt_decode mac key now (.good tok) = .error .invalidSignature) ∧
    (∀ p : Payload, ∀ i : Nat,
       jwt_decode mac key now (.good ⟨p, mac key p ^^^ 2 ^ i⟩) = .error .invalidSignature) := by
  refine ⟨?_, ?_, ?_, ?_⟩
  · intro t
    constructor
    · rintro ⟨p, hp⟩
      cases t with
      | garbage r => simp [jwt_decode] at hp
      | good tok =>
        refine ⟨tok, rfl, ?_, ?_⟩
        · by_contra hc
          simp [jwt_decode, hc] at hp
        · by_contra hc
          simp only [jwt_decode, hc] at hp
          split at hp <;> simp_all
    · rintro ⟨tok, rfl, hsig, hexp⟩
      exact ⟨tok.payload, by simp [jwt_decode, hsig, hexp]⟩
  · intro tok hsig hexp
    simp [jwt_decode, hsig, hexp]
  · intro tok hsig
    simp [jwt_decode, hsig]
  · intro p i
    simp [jwt_decode, xor_two_pow_ne]

/-- C4 counterexample: a well-signed token whose embedded expiry equals the
current time is accepted — `_validate_exp` of python-jose raises only when
exp is strictly below now — so the claim that every token with expiry at or
before the current time fails with Expired is false at the boundary. -/
theorem C4_counterexample :
    payloadB.exp = 1000 ∧
    jwt_decode macModel SECRET_KEY 1000 (.good ⟨payloadB, macModel SECRET_KEY payloadB⟩) =
      .ok payloadB ∧
    verify_token macModel 1000 (.good ⟨payloadB, macModel SECRET_KEY payloadB⟩) =
      some "a@x.com" := by
  refine ⟨rfl, ?_, ?_⟩ <;> rfl

/-- Witness for C4_token_verification. -/
theorem C4_token_verification_witness :
    jwt_decode macModel SECRET_KEY 2000 (.good ⟨payloadB, macModel SECRET_KEY payloadB⟩) =
      .error .expired ∧
    jwt_decode macModel SECRET_KEY 500
      (.good ⟨payloadB, macModel SECRET_KEY payloadB ^^^ 2 ^ 3⟩) = .error .invalidSignature :=
  ⟨(C4_token_verification macModel SECRET_KEY 2000).2.1 ⟨payloadB, macModel SECRET_KEY payloadB⟩
      rfl (by decide),
   (C4_token_verification macModel SECRET_KEY 500).2.2.2 payloadB 3⟩

/-- C10: `verify_token` returns none for a validly signed, unexpired token
whose payload lacks the sub claim, and maps every error `jwt_decode` can
produce to none instead of propagating it, so for every input it yields
either a subject or the failure value. -/
theorem C10_verify_token_requires_sub (mac : Mac) (now : Nat) :
    (∀ tok : Token, tok.sig = mac SECRET_KEY tok.payload → ¬ tok.payload.exp < now →
       tok.payload.sub = none → verify_token mac now (.good tok) = none) ∧
    (∀ t : TokenMsg, ∀ e, jwt_decode mac SECRET_KEY now t = .error e →
       verify_token mac now t = none) := by
  constructor
  · intro tok hsig hexp hsub
    simp [verify_token, jwt_decode, hsig, hexp, hsub]
  · intro t e he
    simp [verify_token, he]

/-- Witness for C10_verify_token_requires_sub. -/
theorem C10_verify_token_requires_sub_witness :
    verify_token macModel 500 (.good ⟨payloadNoSub, macModel SECRET_KEY payloadNoSub⟩) = none ∧
    verify_token macModel 0 (.garbage "not-a-jwt") = none :=
  ⟨(C10_verify_token_requires_sub macModel 500).1 ⟨payloadNoSub, macModel SECRET_KEY payloadNoSub⟩
      rfl (by decide) rfl,
   (C10_verify_token_requires_sub macModel 0).2 (.garbage "not-a-jwt") .malformed rfl⟩

/-- C3 (amended): `create_access_token` defaults the ttl to 15 minutes when
the caller passes none and uses the caller-supplied delta otherwise; the
login flow passes no explicit ttl at any call site, so both the full-session
token and the mfa-pending token expire 900 seconds after issue (the
30-minute constant `ACCESS_TOKEN_EXPIRE_MINUTES` is never used). -/
theorem C3_ttl_is_default_15_minutes (f : DigestFun) (mac : Mac) (now : Nat)
    (sub : Option String) (temp : Bool) (email password : String) (db : Db) :
    (create_access_token mac now sub temp none).payload.exp = now + 15 * 60 ∧
    (∀ d, (create_access_token mac now sub temp (some d)).payload.exp = now + d) ∧
    (∀ url tok db', login f mac now email password db = some (.redirectWithCookie url tok, db') →
       tok.payload.exp = now + 900) ∧
    (∀ tok db', login f mac now email password db = some (.redirectMfaVerify tok, db') →
       tok.payload.exp = now + 900) := by
  refine ⟨rfl, fun d => rfl, ?_, ?_⟩
  · intro url tok db' h
    unfold login at h
    repeat' split at h
    all_goals simp [create_access_token, Prod.ext_iff] at h
    obtain ⟨⟨-, htok⟩, -⟩ := h
    rw [← htok]
  · intro tok db' h
    unfold login at h
    repeat' split at h
    all_goals simp [create_access_token, Prod.ext_iff] at h
    obtain ⟨htok, -⟩ := h
    rw [← htok]

/-- C3 counterexample: the full-session token issued by login for an
MFA-disabled user at time 1000 expires at 1900 = 1000 + 15 * 60, not at
1000 + 30 * 60 as the claim states. -/
theorem C3_counterexample :
    login digestModel macModel 1000 "a@x.com" "pw1" [userA] =
      some (.redirectWithCookie "/dashboard"
        (create_access_token macModel 1000 (some "a@x.com") false none), [userA]) ∧
    (create_access_token macModel 1000 (some "a@x.com") false none).payload.exp = 1900 ∧
    (create_access_token macModel 1000 (some "a@x.com") false none).payload.exp ≠
      1000 + 30 * 60 := by
  refine ⟨by decide, rfl, by decide⟩

/-- Witness for C3_ttl_is_default_15_minutes at a concrete instantiation. -/
theorem C3_ttl_witness :
    (create_access_token macModel 1000 (some "a@x.com") false none).payload.exp =
      1000 + 15 * 60 :=
  (C3_ttl_is_default_15_minutes digestModel macModel 1000 (some "a@x.com") false
    "a@x.com" "pw1" [userA]).1

/-- C1: the code violates the claim (code bug).  `verify_token` never
inspects the temp (purpose) claim, so the mfa-pending token that login issues
for an MFA-enabled user — carrying temp = true — is accepted by the endpoints
that require full authentication: presented as the access_token cookie, the
dashboard renders and setup-mfa serves its page for that user. -/
theorem C1_mfa_pending_token_accepted_by_full_auth_endpoints :
    login digestModel macModel 1000 "m@x.com" "pw1" [userM] =
      some (.redirectMfaVerify tempTokM, [userM]) ∧
    tempTokM.payload.temp = true ∧
    verify_token macModel 1200 (.good tempTokM) = some "m@x.com" ∧
    dashboard macModel 1200 (some (.good tempTokM)) [userM] = .template "dashboard.html" ∧
    setup_mfa macModel 1200 (some (.good tempTokM)) [userM] =
      .template "mfa_already_setup.html" := by
  refine ⟨?_, rfl, ?_, ?_, ?_⟩ <;> decide

/-- C5 (amended): on a hash string that does not parse as a bcrypt hash,
`verify_password` raises (passlib UnknownHashError, a ValueError) instead of
returning false; only on a well-formed hash does it return the boolean
outcome of recomputing and comparing the digest. -/
theorem C5_verify_password_malformed_raises (f : DigestFun) (p s : String) :
    (parseBcrypt s = none → verify_password f p s = .error .unknownHash) ∧
    (∀ bh, parseBcrypt s = some bh →
       verify_password f p s = .ok (f bh.cost bh.salt (truncate72 p) == bh.digest)) := by
  constructor
  · intro h; simp [verify_password, h]
  · intro bh h; simp [verify_password, h]

/-- C5 counterexample: verifying a password against the malformed hash
string "notahash" raises (the error value modelling UnknownHashError) and in
particular does not return false. -/
theorem C5_counterexample :
    verify_password digestModel "pw" "notahash" = .error .unknownHash ∧
    ∀ b : Bool, verify_password digestModel "pw" "notahash" ≠ .ok b :=
  ⟨rfl, fun _ h => Except.noConfusion h⟩

/-- Witness for C5_verify_password_malformed_raises at a concrete input. -/
theorem C5_verify_password_malformed_raises_witness :
    verify_password digestModel "x" "zzz" = .error .unknownHash :=
  (C5_verify_password_malformed_raises digestModel "x" "zzz").1 (by decide)

theorem parseBcrypt_get_password_hash (f : DigestFun) (salt : List Char) (p : String)
    (hs : salt.length = 22) :
    parseBcrypt (get_password_hash f salt p) = some ⟨12, salt, f 12 salt (truncate72 p)⟩ := by
  have h1 : digitChar2 (12 / 10) = '1' := by decide
  have h2 : digitChar2 12 = '2' := by decide
  unfold get_password_hash renderBcrypt
  rw [h1, h2]
  unfold parseBcrypt
  simp only [String.toList]
  rw [if_pos ⟨by decide, by decide, by simp [List.length_append, hs]⟩]
  rw [List.take_left' hs, List.drop_left' hs]
  have hc : ('1'.toNat - 48) * 10 + ('2'.toNat - 48) = 12 := by decide
  rw [hc]

/-- C7 (amended): verify(p, hash(p)) is true for every password and
22-character salt; verify(p2, hash(p1)) is false whenever the digests of the
72-byte-truncated passwords differ; and hashing the same password under two
distinct salts yields two different hash strings, each of which verifies
true.  Distinctness cannot hold for all p1 not equal to p2: bcrypt processes
only the first 72 password bytes. -/
theorem C7_hash_verify_roundtrip (f : DigestFun) (salt salt2 : List Char) (p p2 : String)
    (hs : salt.length = 22) (hs2 : salt2.length = 22) :
    verify_password f p (get_password_hash f salt p) = .ok true ∧
    (f 12 salt (truncate72 p2) ≠ f 12 salt (truncate72 p) →
      verify_password f p2 (get_password_hash f salt p) = .ok false) ∧
    (salt ≠ salt2 → get_password_hash f salt p ≠ get_password_hash f salt2 p) ∧
    verify_password f p (get_password_hash f salt2 p) = .ok true := by
  have hp := parseBcrypt_get_password_hash f salt p hs
  have hp2 := parseBcrypt_get_password_hash f salt2 p hs2
  refine ⟨?_, ?_, ?_, ?_⟩
  · simp [verify_password, hp]
  · intro hne
    simp [verify_password, hp, hne]
  · intro hne heq
    have hpp := congrArg parseBcrypt heq
    rw [hp, hp2] at hpp
    simp [BHash.mk.injEq] at hpp
    exact hne hpp.1
  · simp [verify_password, hp2]

/-- C7 counterexample: two distinct 73-character passwords agreeing on their
first 72 bytes verify interchangeably — for the concrete model digest, and
in fact for any digest function — because of the silent 72-byte bcrypt
truncation, refuting the claim for arbitrary distinct passwords. -/
theorem C7_counterexample :
    pw72b ≠ pw72c ∧
    verify_password digestModel pw72c (get_password_hash digestModel salt0 pw72b) = .ok true := by
  exact ⟨by decide, rfl⟩

/-- Witness for C7_hash_verify_roundtrip at concrete passwords and salts. -/
theorem C7_hash_verify_roundtrip_witness :
    verify_password digestModel "pw1" (get_password_hash digestModel salt0 "pw1") = .ok true ∧
    verify_password digestModel "pw2" (get_password_hash digestModel salt0 "pw1") = .ok false ∧
    get_password_hash digestModel salt0 "pw1" ≠ get_password_hash digestModel salt1 "pw1" ∧
    verify_password digestModel "pw1" (get_password_hash digestModel salt1 "pw1") = .ok true :=
  ⟨(C7_hash_verify_roundtrip digestModel salt0 salt1 "pw1" "pw2" (by decide) (by decide)).1,
   (C7_hash_verify_roundtrip digestModel salt0 salt1 "pw1" "pw2" (by decide) (by decide)).2.1
     (by decide),
   (C7_hash_verify_roundtrip digestModel salt0 salt1 "pw1" "pw2" (by decide) (by decide)).2.2.1
     (by decide),
   (C7_hash_verify_roundtrip digestModel salt0 salt1 "pw1" "pw2" (by decide) (by decide)).2.2.2⟩


theorem hotp_length (key : List Nat) (c : Nat) : (hotp key c).length = 6 := rfl

/-- C6 (amended): for a base32-decodable secret, `verify_mfa_code` never
raises and accepts exactly the single 6-digit code of the current 30-second
window — the pyotp verify method is called with its default valid_window = 0,
so no adjacent-window codes are accepted; any mismatch, including
non-numeric or wrong-length input, yields false. -/
theorem C6_totp_current_window_only (secret code : String) (now : Nat) (key : List Nat)
    (hk : byte_secret secret = some key) :
    verify_mfa_code secret code now = some (code == hotp key (now / 30)) ∧
    (verify_mfa_code secret code now = some true ↔ code = hotp key (now / 30)) ∧
    (code.length ≠ 6 → verify_mfa_code secret code now = some false) := by
  have h1 : verify_mfa_code secret code now = some (code == hotp key (now / 30)) := by
    simp [verify_mfa_code, hk]
  refine ⟨h1, ?_, ?_⟩
  · rw [h1]
    constructor
    · intro h
      have h2 := Option.some.inj h
      exact eq_of_beq (by simpa using h2)
    · intro h
      rw [h]
      simp
  · intro hlen
    rw [h1]
    have hne : code ≠ hotp key (now / 30) := by
      intro he
      exact hlen (by rw [he]; exact hotp_length key (now / 30))
    simp [hne]

/-- C6 counterexample: with the RFC 4226 secret at time 59 (window 1, code
"287082"), the adjacent window-2 code "359152" is rejected, refuting the
claimed plus-minus-one-step skew tolerance; the current code is accepted now
and stops verifying once time advances to window 3. -/
theorem C6_counterexample :
    byte_secret rfcSecret = some rfcKeyBytes ∧
    hotp rfcKeyBytes 1 = "287082" ∧
    hotp rfcKeyBytes 2 = "359152" ∧
    verify_mfa_code rfcSecret "287082" 59 = some true ∧
    verify_mfa_code rfcSecret "359152" 59 = some false ∧
    verify_mfa_code rfcSecret "287082" 95 = some false := by
  refine ⟨by decide, by decide, by decide, by decide, by decide, by decide⟩

/-- Witness for C6_totp_current_window_only. -/
theorem C6_totp_current_window_only_witness :
    verify_mfa_code rfcSecret "1234567" 59 = some false :=
  (C6_totp_current_window_only rfcSecret "1234567" 59 rfcKeyBytes (by decide)).2.2 (by decide)

/-- C8: with a valid full token naming an existing user, enable-mfa on a
failing code answers 401 Invalid MFA code with the user table unchanged and
on a valid code sets mfa_secret and mfa_enabled together; disable-mfa on an
MFA-enabled user with a failing code answers 401 with the table unchanged
and on a valid code clears both fields together. -/
theorem C8_enable_disable_atomic_on_error (mac : Mac) (now : Nat) (tok : TokenMsg)
    (email : String) (db : Db) (user : UserRec) (secret stored code : String)
    (ht : verify_token mac now tok = some email)
    (hu : findByEmail db email = some user) :
    (verify_mfa_code secret code now = some false →
       enable_mfa mac now (some tok) secret code db =
         some (.httpError 401 "Invalid MFA code", db)) ∧
    (verify_mfa_code secret code now = some true →
       enable_mfa mac now (some tok) secret code db =
         some (.redirect "/dashboard?mfa_enabled=true", updateByEmail db email
           (fun u => { u with mfa_secret := some secret, mfa_enabled := true }))) ∧
    (user.mfa_enabled = true → user.mfa_secret = some stored →
       (verify_mfa_code stored code now = some false →
          disable_mfa mac now (some tok) code db =
            some (.httpError 401 "Invalid MFA code", db)) ∧
       (verify_mfa_code stored code now = some true →
          disable_mfa mac now (some tok) code db =
            some (.redirect "/dashboard?mfa_disabled=true", updateByEmail db email
              (fun u => { u with mfa_secret := none, mfa_enabled := false })))) := by
  refine ⟨?_, ?_, ?_⟩
  · intro hv
    simp [enable_mfa, ht, hu, hv]
  · intro hv
    simp [enable_mfa, ht, hu, hv]
  · intro hen hst
    constructor <;> intro hv <;> simp [disable_mfa, ht, hu, hen, hst, hv]

/-- Witness for C8_enable_disable_atomic_on_error. -/
theorem C8_enable_disable_atomic_on_error_witness :
    enable_mfa macModel 59 (some (.good fullTokM)) rfcSecret "000000" [userM] =
      some (.httpError 401 "Invalid MFA code", [userM]) ∧
    disable_mfa macModel 59 (some (.good fullTokM)) "287082" [userM] =
      some (.redirect "/dashboard?mfa_disabled=true", updateByEmail [userM] "m@x.com"
        (fun u => { u with mfa_secret := none, mfa_enabled := false })) :=
  ⟨(C8_enable_disable_atomic_on_error macModel 59 (.good fullTokM) "m@x.com" [userM] userM
      rfcSecret rfcSecret "000000" (by decide) (by decide)).1 (by decide),
   ((C8_enable_disable_atomic_on_error macModel 59 (.good fullTokM) "m@x.com" [userM] userM
      rfcSecret rfcSecret "287082" (by decide) (by decide)).2.2 rfl rfl).2 (by decide)⟩

theorem findByEmail_updateByEmail (db : Db) (e : String) (g : UserRec → UserRec) (u : UserRec)
    (hg : ∀ v, (g v).email = v.email) (hu : findByEmail db e = some u) :
    findByEmail (updateByEmail db e g) e = some (g u) := by
  induction db with
  | nil => simp [findByEmail] at hu
  | cons a tl ih =>
    by_cases ha : a.email = e
    · unfold findByEmail at hu
      rw [List.find?_cons_of_pos _ (by simp [ha])] at hu
      have hau := Option.some.inj hu
      subst hau
      unfold findByEmail updateByEmail
      simp only [List.map_cons, if_pos (beq_iff_eq.mpr ha)]
      rw [List.find?_cons_of_pos _ (by simp [hg, ha])]
    · unfold findByEmail at hu
      rw [List.find?_cons_of_neg _ (by simp [ha])] at hu
      unfold findByEmail updateByEmail
      simp only [List.map_cons, if_neg (by simp [ha] : ¬(a.email == e) = true)]
      rw [List.find?_cons_of_neg _ (by simp [ha])]
      exact ih hu

/-- C9: enable-mfa has no already-enabled check: for a user whose MFA is
already enabled, a valid full token plus any caller-supplied secret with a
code matching that secret succeeds, and the persisted mfa_secret is the
caller-supplied secret verbatim. -/
theorem C9_enable_mfa_ignores_enabled_state (mac : Mac) (now : Nat) (tok : TokenMsg)
    (email : String) (db : Db) (user : UserRec) (secret code : String)
    (ht : verify_token mac now tok = some email)
    (hu : findByEmail db email = some user)
    (_hen : user.mfa_enabled = true)
    (hc : verify_mfa_code secret code now = some true) :
    enable_mfa mac now (some tok) secret code db =
      some (.redirect "/dashboard?mfa_enabled=true", updateByEmail db email
        (fun u => { u with mfa_secret := some secret, mfa_enabled := true })) ∧
    findByEmail (updateByEmail db email
        (fun u => { u with mfa_secret := some secret, mfa_enabled := true })) email =
      some { user with mfa_secret := some secret, mfa_enabled := true } := by
  constructor
  · simp [enable_mfa, ht, hu, hc]
  · exact findByEmail_updateByEmail db email _ user (fun v => rfl) hu

/-- Witness for C9_enable_mfa_ignores_enabled_state. -/
theorem C9_enable_mfa_ignores_enabled_state_witness :
    enable_mfa macModel 59 (some (.good fullTokM)) altSecret "996554" [userM] =
      some (.redirect "/dashboard?mfa_enabled=true", updateByEmail [userM] "m@x.com"
        (fun u => { u with mfa_secret := some altSecret, mfa_enabled := true })) ∧
    findByEmail (updateByEmail [userM] "m@x.com"
        (fun u => { u with mfa_secret := some altSecret, mfa_enabled := true })) "m@x.com" =
      some { userM with mfa_secret := some altSecret, mfa_enabled := true } :=
  C9_enable_mfa_ignores_enabled_state macModel 59 (.good fullTokM) "m@x.com" [userM] userM
    altSecret "996554" (by decide) (by decide) rfl (by decide)


theorem signup_db_shape (f : DigestFun) (salt : List Char) (email name password : String)
    (db : Db) (r : Resp) (db' : Db)
    (h : signup f salt email name password db = (r, db')) :
    db' = db ∨ db' = db ++ [⟨email, name, get_password_hash f salt password, none, false⟩] := by
  unfold signup at h
  split at h
  · cases h
    exact Or.inl rfl
  · cases h
    exact Or.inr rfl

theorem login_db_unchanged (f : DigestFun) (mac : Mac) (now : Nat) (email password : String)
    (db : Db) (r : Resp) (db' : Db)
    (h : login f mac now email password db = some (r, db')) : db' = db := by
  unfold login at h
  repeat' split at h
  all_goals cases h
  all_goals rfl

theorem mfa_verify_db_unchanged (mac : Mac) (now : Nat) (code : String) (token : TokenMsg)
    (db : Db) (r : Resp) (db' : Db)
    (h : mfa_verify mac now code token db = some (r, db')) : db' = db := by
  unfold mfa_verify at h
  repeat' split at h
  all_goals cases h
  all_goals rfl

theorem enable_mfa_db_shape (mac : Mac) (now : Nat) (cookie : Option TokenMsg)
    (secret code : String) (db : Db) (r : Resp) (db' : Db)
    (h : enable_mfa mac now cookie secret code db = some (r, db')) :
    db' = db ∨ ∃ email, db' = updateByEmail db email
      (fun u => { u with mfa_secret := some secret, mfa_enabled := true }) := by
  unfold enable_mfa at h
  repeat' split at h
  all_goals cases h
  all_goals first
    | exact Or.inl rfl
    | exact Or.inr ⟨_, rfl⟩

theorem disable_mfa_db_shape (mac : Mac) (now : Nat) (cookie : Option TokenMsg)
    (code : String) (db : Db) (r : Resp) (db' : Db)
    (h : disable_mfa mac now cookie code db = some (r, db')) :
    db' = db ∨ ∃ email, db' = updateByEmail db email
      (fun u => { u with mfa_secret := none, mfa_enabled := false }) := by
  unfold disable_mfa at h
  repeat' split at h
  all_goals cases h
  all_goals first
    | exact Or.inl rfl
    | exact Or.inr ⟨_, rfl⟩

theorem updateByEmail_invariant (db : Db) (e : String) (g : UserRec → UserRec)
    (hg : ∀ u, UserInvariant (g u)) (hdb : DbInvariant db) :
    DbInvariant (updateByEmail db e g) := by
  intro u hu
  unfold updateByEmail at hu
  obtain ⟨v, hv, hvu⟩ := List.mem_map.mp hu
  by_cases hc : v.email == e
  · rw [if_pos hc] at hvu
    exact hvu ▸ hg v
  · rw [if_neg hc] at hvu
    exact hvu ▸ hdb v hv

/-- C2 (amended): every table-mutating request preserves the record
invariant in the form the code maintains it — mfa_enabled = true implies
mfa_secret is present (though possibly the empty string, because enable-mfa
persists the caller secret verbatim and the empty string has valid TOTP
codes) and mfa_enabled = false implies mfa_secret is absent; signup appends
a record with mfa_secret none and mfa_enabled false; login and mfa-verify
leave the table unchanged; enable-mfa and disable-mfa are the only mutators
and set or clear both fields together. -/
theorem C2_mfa_record_invariant (f : DigestFun) (mac : Mac) :
    (∀ db db', DbInvariant db → Step f mac db db' → DbInvariant db') ∧
    (∀ salt email name password db r db',
       signup f salt email name password db = (r, db') →
       db' = db ∨ db' = db ++ [⟨email, name, get_password_hash f salt password, none, false⟩]) ∧
    (∀ now email password db r db',
       login f mac now email password db = some (r, db') → db' = db) ∧
    (∀ now code token db r db',
       mfa_verify mac now code token db = some (r, db') → db' = db) ∧
    (∀ now cookie secret code db r db',
       enable_mfa mac now cookie secret code db = some (r, db') →
       db' = db ∨ ∃ email, db' = updateByEmail db email
         (fun u => { u with mfa_secret := some secret, mfa_enabled := true })) ∧
    (∀ now cookie code db r db',
       disable_mfa mac now cookie code db = some (r, db') →
       db' = db ∨ ∃ email, db' = updateByEmail db email
         (fun u => { u with mfa_secret := none, mfa_enabled := false })) := by
  refine ⟨?_, signup_db_shape f, login_db_unchanged f mac, mfa_verify_db_unchanged mac,
    enable_mfa_db_shape mac, disable_mfa_db_shape mac⟩
  intro db db' hinv hstep
  cases hstep with
  | ofSignup salt email name password dbx r dbx' h =>
    rcases signup_db_shape f salt email name password db r db' h with rfl | rfl
    · exact hinv
    · intro u hu
      rcases List.mem_append.mp hu with hin | hone
      · exact hinv u hin
      · rcases List.mem_singleton.mp hone with rfl
        exact ⟨fun ht => by simp at ht, fun _ => rfl⟩
  | ofLogin now email password dbx r dbx' h =>
    have hd := login_db_unchanged f mac now email password db r db' h
    subst hd
    exact hinv
  | ofMfaVerify now code token dbx r dbx' h =>
    have hd := mfa_verify_db_unchanged mac now code token db r db' h
    subst hd
    exact hinv
  | ofEnableMfa now cookie secret code dbx r dbx' h =>
    rcases enable_mfa_db_shape mac now cookie secret code db r db' h with rfl | ⟨e, rfl⟩
    · exact hinv
    · exact updateByEmail_invariant db e _
        (fun u => ⟨fun _ => ⟨secret, rfl⟩, fun hF => by simp at hF⟩) hinv
  | ofDisableMfa now cookie code dbx r dbx' h =>
    rcases disable_mfa_db_shape mac now cookie code db r db' h with rfl | ⟨e, rfl⟩
    · exact hinv
    · exact updateByEmail_invariant db e _
        (fun u => ⟨fun hT => by simp at hT, fun _ => rfl⟩) hinv

/-- Witness for C2_mfa_record_invariant: the invariant holds after a signup
step from the empty table. -/
theorem C2_mfa_record_invariant_witness :
    DbInvariant [⟨"a@x.com", "A", get_password_hash digestModel salt0 "pw1", none, false⟩] :=
  (C2_mfa_record_invariant digestModel macModel).1 []
    [⟨"a@x.com", "A", get_password_hash digestModel salt0 "pw1", none, false⟩]
    (fun u hu => absurd hu (List.not_mem_nil u))
    (.ofSignup salt0 "a@x.com" "A" "pw1" [] (.redirect "/login") _ rfl)

/-- C2 counterexample: enable-mfa accepts the empty-string secret together
with its valid TOTP code (the HOTP code of the empty key at window 0 is
"328482"), leaving a reachable record with mfa_enabled = true and
mfa_secret = some "" — the non-emptiness stated by the claim fails. -/
theorem C2_counterexample :
    enable_mfa macModel 0 (some (.good fullTokA)) "" "328482" [userA] =
      some (.redirect "/dashboard?mfa_enabled=true",
        [{ userA with mfa_secret := some "", mfa_enabled := true }]) ∧
    ¬ UserInvariantStrong { userA with mfa_secret := some "", mfa_enabled := true } := by
  constructor
  · decide
  · rintro ⟨h1, -⟩
    obtain ⟨s, hs, hne⟩ := h1 rfl
    simp at hs
    exact hne hs.symm

end MfaApp
